import Mathlib

/-!
Shallow embedding of the `sqlmodel-repository` core
(`src/sqlmodel_repository/base_repository.py`, `context.py`, `entity.py`,
`exceptions.py`) and proofs about its CRUD, batch, logging and
session-provider behaviour.

Modelling conventions:
* Python attribute values are modelled as `Int`; an entity is its optional
  primary key `id` plus an association list of the remaining attributes.
* The persistence engine is modelled by a `Session` state (committed rows,
  an id counter, pending inserts and pending deletes) plus an `Engine`
  record of rejection predicates standing for constraint violations.
* Fallible Python code returns `Except`; a raised exception is an
  `Except.error`.
* Python `None` in an update's keyword values is `Option.none`.
* Structured log emission is returned as a `List LogEvent` trace next to
  each operation's result.
-/

deriving instance DecidableEq for Except

namespace SqlmodelRepository

/-- Association-list lookup for entity attributes (first binding wins,
mirroring a Python attribute dictionary with unique keys). -/
def getField : List (String × Int) → String → Option Int
  | [], _ => none
  | (k, v) :: rest, key => if k = key then some v else getField rest key

/-- Association-list update: replaces the binding for `key` when present,
otherwise appends it. -/
def setField : List (String × Int) → String → Int → List (String × Int)
  | [], key, value => [(key, value)]
  | (k, v) :: rest, key, value =>
      if k = key then (key, value) :: rest else (k, v) :: setField rest key value

/-- An entity instance: the `id` primary key declared on `SQLModelEntity`
(`entity.py`, default `None`, engine-populated on insert) plus the
subclass-declared attributes. -/
structure Entity where
  id : Option Int
  fields : List (String × Int)
deriving DecidableEq, Repr

/-- Reading one attribute of an entity instance (`getattr(entity, key)` for
declared data attributes; `id` lives beside the other fields). -/
def Entity.attr (e : Entity) (key : String) : Option Int :=
  if key = "id" then e.id else getField e.fields key

/-- The resolved entity class: its `__name__` and the attribute names the
subclass declares beside the inherited `id`. -/
structure EntityClass where
  name : String
  decls : List String
deriving DecidableEq, Repr

/-- Whether `setattr(entity, key, value)` succeeds: the key must be a
declared field of the entity class (`id` is declared on the base class);
assignment to an undeclared name raises. -/
def settable (cls : EntityClass) (key : String) : Bool :=
  key == "id" || cls.decls.contains key

/-- Python `setattr(entity, key, value)`: `none` models the raised
exception for an undeclared attribute name. -/
def setattrE (cls : EntityClass) (e : Entity) (key : String) (value : Int) : Option Entity :=
  if key = "id" then some { e with id := some value }
  else if cls.decls.contains key then some { e with fields := setField e.fields key value }
  else none

/-- An engine-level error (`sqlalchemy` exception), kept as the `__cause__`
of the repository exception that wraps it. -/
inductive EngineError
  | rejectedInsert (row : Entity)
  | rejectedDelete (row : Entity)
deriving DecidableEq, Repr

/-- The repository exception taxonomy of `exceptions.py`. -/
inductive RepoError
  | couldNotCreateEntity (cause : EngineError)
  | couldNotDeleteEntity (cause : EngineError)
  | entityNotFound
  | entityDoesNotPossessAttribute (key : String)
deriving DecidableEq, Repr

/-- The persistence engine's session state: committed rows, the next
engine-assigned primary key, and the operations staged since the last
commit or rollback. -/
structure Session where
  store : List Entity
  nextId : Int
  pendingAdd : List Entity
  pendingDelete : List Entity
deriving DecidableEq, Repr

/-- Constraint checking of the external engine: which rows a commit
rejects on insert and on delete. -/
structure Engine where
  rejectInsert : Entity → Bool
  rejectDelete : Entity → Bool

/-- The session-level `add`: stages an entity for insertion. -/
def sessionAdd (s : Session) (e : Entity) : Session :=
  { s with pendingAdd := s.pendingAdd ++ [e] }

/-- The session-level `delete`: stages an entity for deletion. -/
def sessionDelete (s : Session) (e : Entity) : Session :=
  { s with pendingDelete := s.pendingDelete ++ [e] }

/-- The session-level `rollback`: discards all staged operations, leaving
the committed store untouched. -/
def rollback (s : Session) : Session :=
  { s with pendingAdd := [], pendingDelete := [] }

/-- Engine id assignment at flush time: a row whose primary key is unset
receives the next fresh id, a row with a set key keeps it. -/
def assignId (e : Entity) (n : Int) : Entity :=
  if e.id = none then { e with id := some n } else e

/-- Flushes staged inserts in order: each row gets the next fresh engine id
when its primary key is unset; a rejected row aborts the whole flush.
Returns the new store, the next free id and the inserted rows in order. -/
def insertAll (reject : Entity → Bool) (store : List Entity) (nid : Int) :
    List Entity → Except EngineError (List Entity × Int × List Entity)
  | [] => .ok (store, nid, [])
  | e :: rest =>
      let row := assignId e nid
      let nid2 := if e.id = none then nid + 1 else nid
      if reject row then .error (.rejectedInsert row)
      else
        match insertAll reject (store ++ [row]) nid2 rest with
        | .error err => .error err
        | .ok (st, n, rows) => .ok (st, n, row :: rows)

/-- Flushes staged deletes in order: removes each row's id from the store;
a rejected row aborts the whole flush. -/
def deleteAll (reject : Entity → Bool) (store : List Entity) :
    List Entity → Except EngineError (List Entity)
  | [] => .ok store
  | e :: rest =>
      if reject e then .error (.rejectedDelete e)
      else deleteAll reject (store.filter fun r => !(r.id == e.id)) rest

/-- The session-level `commit`: flushes all staged inserts then deletes;
on success the pending lists are cleared and the inserted rows are
returned (they are what `refresh` reads back for created entities). -/
def commit (eng : Engine) (s : Session) : Except EngineError (Session × List Entity) :=
  match insertAll eng.rejectInsert s.store s.nextId s.pendingAdd with
  | .error err => .error err
  | .ok (st, nid, rows) =>
      match deleteAll eng.rejectDelete st s.pendingDelete with
      | .error err => .error err
      | .ok st2 => .ok ({ store := st2, nextId := nid, pendingAdd := [], pendingDelete := [] }, rows)

/-- A session with nothing staged and every committed row carrying an
assigned id smaller than the engine's next fresh id. -/
def rowFresh (n : Int) (r : Entity) : Bool :=
  match r.id with
  | some i => decide (i < n)
  | none => false

/-- Well-formedness of a session at a public-operation boundary. -/
def wf (s : Session) : Bool :=
  s.pendingAdd.isEmpty && s.pendingDelete.isEmpty && s.store.all (rowFresh s.nextId)

/-- Severity of an emitted structured-log event. -/
inductive LogLevel
  | debug
  | warning
deriving DecidableEq, Repr

/-- One structured-log event as `_emit_log` builds it: the operation word
of the event string, the entity class name, the redacted entity payloads
and the redacted `kwarg_`-prefixed keyword pairs; a `warning` event stands
for the `Could not emit log for ...` fallback. -/
structure LogEvent where
  level : LogLevel
  operation : String
  entityName : String
  entityLog : List (List (String × Option Int))
  kwargLog : List (String × Option Int)
deriving DecidableEq, Repr

/-- Repository configuration held by `BaseRepository.__init__`: the
resolved entity class and the caller-supplied sensitive attribute keys. -/
structure RepoConfig where
  cls : EntityClass
  sensitive : List String
deriving DecidableEq, Repr

/-- The class-level `_default_excluded_keys`. -/
def defaultExcludedKeys : List String := ["_sa_instance_state"]

/-- The `_safe_kwargs` helper: drops every pair whose key is a configured
sensitive attribute or a default-excluded engine bookkeeping key, then
prefixes the surviving keys. -/
def safeKwargs (sensitive : List String) (pfx : String) (kwargs : List (String × Option Int)) :
    List (String × Option Int) :=
  (kwargs.filter fun kv => !((sensitive ++ defaultExcludedKeys).contains kv.1)).map
    fun kv => (pfx ++ kv.1, kv.2)

/-- The attribute dictionary `entity.dict()`: the inherited `id` followed
by each declared attribute with its current value. -/
def Entity.dict (cls : EntityClass) (e : Entity) : List (String × Option Int) :=
  ("id", e.id) :: cls.decls.map fun k => (k, getField e.fields k)

/-- The `_emit_log` wrapper. `logOk = false` models the case in which
building or emitting the debug entry raises: the exception is caught and
replaced by a warning event about the logging failure, and nothing is
ever re-raised to the wrapped operation. -/
def emitLog (cfg : RepoConfig) (logOk : Bool) (operation : String)
    (entities : List Entity) (kwargs : List (String × Option Int)) : List LogEvent :=
  if logOk then
    [{ level := .debug, operation := operation, entityName := cfg.cls.name,
       entityLog := entities.map fun e => safeKwargs cfg.sensitive "" (Entity.dict cfg.cls e),
       kwargLog := safeKwargs cfg.sensitive "kwarg_" kwargs }]
  else
    [{ level := .warning, operation := "Could not emit log for " ++ operation,
       entityName := cfg.cls.name, entityLog := [], kwargLog := [] }]

/-- Result of one public repository operation: the session state after the
call, the emitted log trace, and the returned value or raised exception. -/
abbrev OpResult (α : Type) := Session × List LogEvent × Except RepoError α

/-- The `get` operation: logs, queries the store by primary key with
`one_or_none`, and raises `EntityNotFoundException` on zero matches. The
argument is the Python value passed for `entity_id` (callers such as
`update` pass `entity.id`, which may be unset). -/
def getOp (cfg : RepoConfig) (logOk : Bool) (s : Session) (entityId : Option Int) :
    OpResult Entity :=
  let log := emitLog cfg logOk "Getting" [] [("id", entityId)]
  match s.store.find? (fun r => r.id == entityId) with
  | none => (s, log, .error .entityNotFound)
  | some r => (s, log, .ok r)

/-- The `get_batch` operation: logs, then filters the store by the given
equality predicates (empty list matches all rows). -/
def getBatchOp (cfg : RepoConfig) (logOk : Bool) (s : Session)
    (filters : List (String × Int)) : OpResult (List Entity) :=
  let log := emitLog cfg logOk "Batch get" [] []
  (s, log, .ok (s.store.filter fun r => filters.all fun kv => r.attr kv.1 == some kv.2))

/-- The `find` operation: translates each keyword pair into an equality
filter, raising `EntityDoesNotPossessAttributeException` at the first
name that is not declared on the entity class, then delegates to
`get_batch`. -/
def findOp (cfg : RepoConfig) (logOk : Bool) (s : Session)
    (kwargs : List (String × Int)) : OpResult (List Entity) :=
  match kwargs.find? (fun kv => !settable cfg.cls kv.1) with
  | some kv => (s, [], .error (.entityDoesNotPossessAttribute kv.1))
  | none => getBatchOp cfg logOk s kwargs

/-- The `create` operation: logs, stages the entity, commits, refreshes;
on an engine error the session is rolled back and the error is wrapped in
`CouldNotCreateEntityException`. -/
def createOp (eng : Engine) (cfg : RepoConfig) (logOk : Bool) (s : Session)
    (e : Entity) : OpResult Entity :=
  let log := emitLog cfg logOk "Creating" [e] []
  let s1 := sessionAdd s e
  match commit eng s1 with
  | .error err => (rollback s1, log, .error (.couldNotCreateEntity err))
  | .ok (s2, rows) => (s2, log, .ok (rows.getLast?.getD e))

/-- The `create_batch` operation: logs, stages every entity, performs one
commit; on an engine error the session is rolled back and the error is
wrapped; on success every entity is refreshed from the store. -/
def createBatchOp (eng : Engine) (cfg : RepoConfig) (logOk : Bool) (s : Session)
    (es : List Entity) : OpResult (List Entity) :=
  let log := emitLog cfg logOk "Batch creating" es []
  let s1 := es.foldl sessionAdd s
  match commit eng s1 with
  | .error err => (rollback s1, log, .error (.couldNotCreateEntity err))
  | .ok (s2, rows) => (s2, log, .ok (rows.drop s.pendingAdd.length))

/-- The `delete` operation: logs, stages the deletion, commits; on an
engine error the session is rolled back and the error is wrapped in
`CouldNotDeleteEntityException`. -/
def deleteOp (eng : Engine) (cfg : RepoConfig) (logOk : Bool) (s : Session)
    (e : Entity) : OpResult Entity :=
  let log := emitLog cfg logOk "Deleting" [e] []
  let s1 := sessionDelete s e
  match commit eng s1 with
  | .error err => (rollback s1, log, .error (.couldNotDeleteEntity err))
  | .ok (s2, _) => (s2, log, .ok e)

/-- The `delete_batch` operation: logs, stages every deletion, performs
one commit; on an engine error the session is rolled back and the error
is wrapped. -/
def deleteBatchOp (eng : Engine) (cfg : RepoConfig) (logOk : Bool) (s : Session)
    (es : List Entity) : OpResult Unit :=
  let log := emitLog cfg logOk "Batch deleting" es []
  let s1 := es.foldl sessionDelete s
  match commit eng s1 with
  | .error err => (rollback s1, log, .error (.couldNotDeleteEntity err))
  | .ok (s2, _) => (s2, log, .ok ())

/-- The keyword loop shared by `update` and `update_batch`: each pair with
a non-`None` value is assigned with `setattr`, wrapping an assignment
failure in `EntityDoesNotPossessAttributeException`; `None` values are
skipped. -/
def applyKwargs (cls : EntityClass) : Entity → List (String × Option Int) →
    Except RepoError Entity
  | e, [] => .ok e
  | e, (k, v) :: rest =>
      match v with
      | none => applyKwargs cls e rest
      | some value =>
          match setattrE cls e k value with
          | none => .error (.entityDoesNotPossessAttribute k)
          | some e2 => applyKwargs cls e2 rest

/-- Writes a mutated attached row back at its pre-mutation primary key
(the flush a commit performs for a dirty attached object); rows whose id
does not match are untouched, and an id absent from the store writes
nothing. -/
def writeRow (store : List Entity) (oldId : Option Int) (e : Entity) : List Entity :=
  store.map fun r => if r.id == oldId then e else r

/-- The `update` operation: logs, re-fetches the entity by `entity.id`
through `get` (which may raise `EntityNotFoundException`), applies the
non-`None` keyword values, commits the dirty row and refreshes it. -/
def updateOp (cfg : RepoConfig) (logOk : Bool) (s : Session) (e : Entity)
    (kwargs : List (String × Option Int)) : OpResult Entity :=
  let log1 := emitLog cfg logOk "Updating" [e] kwargs
  match getOp cfg logOk s e.id with
  | (s1, log2, .error err) => (s1, log1 ++ log2, .error err)
  | (s1, log2, .ok fetched) =>
      match applyKwargs cfg.cls fetched kwargs with
      | .error err => (s1, log1 ++ log2, .error err)
      | .ok e2 =>
          ({ s1 with store := writeRow s1.store fetched.id e2 }, log1 ++ log2, .ok e2)

/-- Applies the same keyword changes to every entity of a batch, stopping
at the first assignment failure, as the nested loop of `update_batch`
does. -/
def applyAllKwargs (cls : EntityClass) : List Entity → List (String × Option Int) →
    Except RepoError (List Entity)
  | [], _ => .ok []
  | e :: rest, kwargs =>
      match applyKwargs cls e kwargs with
      | .error err => .error err
      | .ok e2 =>
          match applyAllKwargs cls rest kwargs with
          | .error err => .error err
          | .ok rest2 => .ok (e2 :: rest2)

/-- The `update_batch` operation: logs, mutates every given in-memory
entity with the non-`None` keyword values — with no re-fetch and no
existence check — then commits the dirty rows and refreshes each one. -/
def updateBatchOp (cfg : RepoConfig) (logOk : Bool) (s : Session)
    (es : List Entity) (kwargs : List (String × Option Int)) : OpResult (List Entity) :=
  let log := emitLog cfg logOk "Batch updating" es kwargs
  match applyAllKwargs cfg.cls es kwargs with
  | .error err => (s, log, .error err)
  | .ok es2 =>
      ({ s with store := ((es.zip es2).foldl (fun st p => writeRow st p.1.id p.2) s.store) },
        log, .ok es2)

/-- The context-local session state of `context.py`: the session cached in
the `ContextVar` (identified by a token) and the counter handing out
fresh sessions from the session manager. -/
structure SessionContext where
  cached : Option Nat
  counter : Nat
deriving DecidableEq, Repr

/-- The module-level `get_session` of `context.py`: returns the session
stored in the context when there is one, otherwise pulls a fresh session
from the session manager and caches it in the context. -/
def get_session (ctx : SessionContext) : SessionContext × Nat :=
  match ctx.cached with
  | some s => (ctx, s)
  | none => ({ cached := some ctx.counter, counter := ctx.counter + 1 }, ctx.counter)

/-- The generic argument of a repository subclass declaration, together
with whether it descends from `SQLModelEntity`. -/
structure TypeDecl where
  name : String
  isEntitySubclass : Bool
deriving DecidableEq, Repr

/-- A repository subclass declaration: its name and the type bound to the
generic parameter in `__orig_bases__`. -/
structure RepoClassDecl where
  name : String
  genericArg : TypeDecl
deriving DecidableEq, Repr

/-- The body of `_entity_class`: reads the generic argument and raises a
`TypeError` when it is not a subclass of `SQLModelEntity`. -/
def resolveEntityClass (r : RepoClassDecl) : Except String TypeDecl :=
  if r.genericArg.isEntitySubclass then .ok r.genericArg
  else .error ("Entity class " ++ r.genericArg.name ++ " for " ++ r.name ++
      " must be a subclass of SQLModelEntity")

/-- The state of the `lru_cache(maxsize=1)` sitting on `_entity_class`:
at most one `(cls, result)` entry, shared by every repository subclass. -/
structure LruCache1 where
  entry : Option (RepoClassDecl × TypeDecl)
deriving DecidableEq, Repr

/-- One call of `_entity_class` through its size-one cache. The flag
reports whether the underlying resolution ran: a hit answers from the
cache, a miss computes, and — as `functools.lru_cache` does — stores the
result only when no exception was raised, evicting the previous entry. -/
def entityClassCached (c : LruCache1) (r : RepoClassDecl) :
    LruCache1 × Except String TypeDecl × Bool :=
  match c.entry with
  | some (r0, t) =>
      if r0 = r then (c, .ok t, false)
      else
        match resolveEntityClass r with
        | .ok t2 => (⟨some (r, t2)⟩, .ok t2, true)
        | .error msg => (c, .error msg, true)
  | none =>
      match resolveEntityClass r with
      | .ok t2 => (⟨some (r, t2)⟩, .ok t2, true)
      | .error msg => (c, .error msg, true)

/-- Runs a sequence of `_entity_class` calls, recording for each call
whether the resolution had to run. -/
def runEntityClassCalls (c : LruCache1) :
    List RepoClassDecl → LruCache1 × List (RepoClassDecl × Bool)
  | [] => (c, [])
  | r :: rest =>
      let step := entityClassCached c r
      let tail := runEntityClassCalls step.1 rest
      (tail.1, (r, step.2.2) :: tail.2)

/-! Concrete fixtures used by the witness theorems: a `Pet` entity class
with two declared attributes, an engine that rejects inserting any row
whose `name` is `0` and deleting the row with id `99`, and a session
holding one committed row. -/

/-- The fixture entity class. -/
def petClass : EntityClass := { name := "Pet", decls := ["name", "age"] }

/-- The fixture repository configuration, with `age` marked sensitive. -/
def cfgW : RepoConfig := { cls := petClass, sensitive := ["age"] }

/-- The fixture engine. -/
def engW : Engine :=
  { rejectInsert := fun e => getField e.fields "name" == some 0,
    rejectDelete := fun e => e.id == some 99 }

/-- The fixture committed row. -/
def dogW : Entity := ⟨some 1, [("name", 10), ("age", 3)]⟩

/-- The fixture session. -/
def sW : Session := { store := [dogW], nextId := 2, pendingAdd := [], pendingDelete := [] }

/-! Helper lemmas. -/

/-- A well-formed session has no staged inserts. -/
theorem wf_pendingAdd {s : Session} (h : wf s = true) : s.pendingAdd = [] := by
  simp only [wf, Bool.and_eq_true, List.isEmpty_iff] at h
  exact h.1.1

/-- A well-formed session has no staged deletes. -/
theorem wf_pendingDelete {s : Session} (h : wf s = true) : s.pendingDelete = [] := by
  simp only [wf, Bool.and_eq_true, List.isEmpty_iff] at h
  exact h.1.2

/-- A well-formed session's rows all carry ids below the next fresh id. -/
theorem wf_storeFresh {s : Session} (h : wf s = true) :
    s.store.all (rowFresh s.nextId) = true := by
  simp only [wf, Bool.and_eq_true, List.isEmpty_iff] at h
  exact h.2

/-- Querying by a freshly assigned id finds exactly the appended row: no
pre-existing row can carry the fresh id. -/
theorem find_fresh (store : List Entity) (row : Entity) (n : Int)
    (hall : store.all (rowFresh n) = true) (hrow : row.id = some n) :
    (store ++ [row]).find? (fun r => r.id == some n) = some row := by
  induction store with
  | nil => simp [List.find?, hrow]
  | cons r rest ih =>
      simp only [List.all_cons, Bool.and_eq_true] at hall
      have hne : (r.id == some n) = false := by
        unfold rowFresh at hall
        cases hid : r.id with
        | none => simp [hid]
        | some i =>
            rw [hid] at hall
            simp only [decide_eq_true_eq] at hall
            have : i ≠ n := by omega
            simp [hid, this]
      simp only [List.cons_append, List.find?, hne]
      exact ih hall.2

/-- Staging a list of inserts only appends to the pending-insert list. -/
theorem foldl_sessionAdd (es : List Entity) (s : Session) :
    es.foldl sessionAdd s = { s with pendingAdd := s.pendingAdd ++ es } := by
  induction es generalizing s with
  | nil => simp
  | cons e rest ih => simp [List.foldl_cons, sessionAdd, ih]

/-- Staging a list of deletes only appends to the pending-delete list. -/
theorem foldl_sessionDelete (es : List Entity) (s : Session) :
    es.foldl sessionDelete s = { s with pendingDelete := s.pendingDelete ++ es } := by
  induction es generalizing s with
  | nil => simp
  | cons e rest ih => simp [List.foldl_cons, sessionDelete, ih]

/-- C1: for every valid unpersisted entity `e` accepted by the engine, a
successful `create(e)` returns the entity carrying the engine-assigned id
(`some s.nextId`, in particular no longer unset), and a subsequent `get`
on that id returns an entity equal to the one `create` returned. -/
theorem create_then_get_roundtrip (eng : Engine) (cfg : RepoConfig) (logOk : Bool)
    (s : Session) (e : Entity) (hwf : wf s = true) (hid : e.id = none)
    (hok : eng.rejectInsert { e with id := some s.nextId } = false) :
    ∃ e2, (createOp eng cfg logOk s e).2.2 = .ok e2 ∧
      e2.id = some s.nextId ∧
      (getOp cfg logOk (createOp eng cfg logOk s e).1 e2.id).2.2 = .ok e2 := by
  have hA := wf_pendingAdd hwf
  have hD := wf_pendingDelete hwf
  have hcreate : createOp eng cfg logOk s e =
      ({ store := s.store ++ [{ e with id := some s.nextId }], nextId := s.nextId + 1,
         pendingAdd := [], pendingDelete := [] },
       emitLog cfg logOk "Creating" [e] [],
       .ok { e with id := some s.nextId }) := by
    simp [createOp, sessionAdd, hA, hD, commit, insertAll, assignId, hid, hok, deleteAll]
  refine ⟨{ e with id := some s.nextId }, by rw [hcreate], rfl, ?_⟩
  rw [hcreate]
  simp only [getOp]
  rw [find_fresh s.store _ s.nextId (wf_storeFresh hwf) rfl]

/-- Witness for C1 at the concrete fixture input. -/
theorem create_then_get_roundtrip_witness :
    ∃ e2, (createOp engW cfgW true sW ⟨none, [("name", 7)]⟩).2.2 = .ok e2 ∧
      e2.id = some sW.nextId ∧
      (getOp cfgW true (createOp engW cfgW true sW ⟨none, [("name", 7)]⟩).1 e2.id).2.2 =
        .ok e2 :=
  create_then_get_roundtrip engW cfgW true sW ⟨none, [("name", 7)]⟩
    (by decide) rfl (by decide)

/-- C2: for each mutating operation (`create`, `create_batch`, `delete`,
`delete_batch`) and every input on which the engine rejects a member, the
operation rolls the session back before raising (no staged work is left),
raises the matching `CouldNotCreateEntity`/`CouldNotDeleteEntity` error
wrapping the engine error as its cause, and persists zero elements of the
call (the committed store is exactly the pre-call store). -/
theorem mutating_ops_all_or_nothing (eng : Engine) (cfg : RepoConfig) (logOk : Bool)
    (s : Session) (hwf : wf s = true) :
    (∀ e, eng.rejectInsert (assignId e s.nextId) = true →
        createOp eng cfg logOk s e =
          ({ s with pendingAdd := [], pendingDelete := [] },
           emitLog cfg logOk "Creating" [e] [],
           .error (.couldNotCreateEntity (.rejectedInsert (assignId e s.nextId))))) ∧
    (∀ es err, insertAll eng.rejectInsert s.store s.nextId es = .error err →
        createBatchOp eng cfg logOk s es =
          ({ s with pendingAdd := [], pendingDelete := [] },
           emitLog cfg logOk "Batch creating" es [],
           .error (.couldNotCreateEntity err))) ∧
    (∀ e, eng.rejectDelete e = true →
        deleteOp eng cfg logOk s e =
          ({ s with pendingAdd := [], pendingDelete := [] },
           emitLog cfg logOk "Deleting" [e] [],
           .error (.couldNotDeleteEntity (.rejectedDelete e)))) ∧
    (∀ es err, deleteAll eng.rejectDelete s.store es = .error err →
        deleteBatchOp eng cfg logOk s es =
          ({ s with pendingAdd := [], pendingDelete := [] },
           emitLog cfg logOk "Batch deleting" es [],
           .error (.couldNotDeleteEntity err))) := by
  have hA := wf_pendingAdd hwf
  have hD := wf_pendingDelete hwf
  refine ⟨?_, ?_, ?_, ?_⟩
  · intro e h
    simp [createOp, sessionAdd, hA, hD, commit, insertAll, h, rollback]
  · intro es err h
    simp [createBatchOp, foldl_sessionAdd, hA, hD, commit, h, rollback]
  · intro e h
    simp [deleteOp, sessionDelete, hA, hD, commit, insertAll, deleteAll, h, rollback]
  · intro es err h
    simp [deleteBatchOp, foldl_sessionDelete, hA, hD, commit, insertAll, deleteAll, h,
      rollback]

/-- Witness for C2 at concrete rejected inputs, one per operation. -/
theorem mutating_ops_all_or_nothing_witness :
    (createOp engW cfgW true sW ⟨none, [("name", 0)]⟩ =
      ({ sW with pendingAdd := [], pendingDelete := [] },
       emitLog cfgW true "Creating" [⟨none, [("name", 0)]⟩] [],
       .error (.couldNotCreateEntity
         (.rejectedInsert (assignId ⟨none, [("name", 0)]⟩ sW.nextId))))) ∧
    (createBatchOp engW cfgW true sW [⟨none, [("name", 5)]⟩, ⟨none, [("name", 0)]⟩] =
      ({ sW with pendingAdd := [], pendingDelete := [] },
       emitLog cfgW true "Batch creating" [⟨none, [("name", 5)]⟩, ⟨none, [("name", 0)]⟩] [],
       .error (.couldNotCreateEntity (.rejectedInsert ⟨some 3, [("name", 0)]⟩)))) ∧
    (deleteOp engW cfgW true sW ⟨some 99, []⟩ =
      ({ sW with pendingAdd := [], pendingDelete := [] },
       emitLog cfgW true "Deleting" [⟨some 99, []⟩] [],
       .error (.couldNotDeleteEntity (.rejectedDelete ⟨some 99, []⟩)))) ∧
    (deleteBatchOp engW cfgW true sW [dogW, ⟨some 99, []⟩] =
      ({ sW with pendingAdd := [], pendingDelete := [] },
       emitLog cfgW true "Batch deleting" [dogW, ⟨some 99, []⟩] [],
       .error (.couldNotDeleteEntity (.rejectedDelete ⟨some 99, []⟩)))) := by
  have h := mutating_ops_all_or_nothing engW cfgW true sW (by decide)
  exact ⟨h.1 _ (by decide), h.2.1 _ _ (by decide), h.2.2.1 _ (by decide),
    h.2.2.2 _ _ (by decide)⟩

/-- Point lookup after an association-list update. -/
theorem getField_setField (l : List (String × Int)) (k k' : String) (v : Int) :
    getField (setField l k v) k' = if k' = k then some v else getField l k' := by
  induction l with
  | nil =>
      by_cases h : k' = k
      · simp [setField, getField, h]
      · have h2 : ¬ k = k' := fun hh => h hh.symm
        simp [setField, getField, h, h2]
  | cons p rest ih =>
      obtain ⟨a, b⟩ := p
      by_cases ha : a = k
      · subst ha
        by_cases h : k' = a
        · simp [setField, getField, h]
        · have h2 : ¬ a = k' := fun hh => h hh.symm
          simp [setField, getField, h, h2]
      · by_cases h : a = k'
        · have h2 : ¬ k' = k := fun hh => ha (h.trans hh)
          simp [setField, getField, ha, h, h2]
        · simp [setField, getField, ha, h, ih]

/-- A successful `setattr` changes exactly the assigned attribute and no
other attribute of the entity. -/
theorem setattrE_attr (cls : EntityClass) (e e2 : Entity) (k k' : String) (v : Int)
    (h : setattrE cls e k v = some e2) :
    Entity.attr e2 k' = if k' = k then some v else Entity.attr e k' := by
  unfold setattrE at h
  by_cases hk : k = "id"
  · subst hk
    rw [if_pos rfl] at h
    injection h with h
    subst h
    by_cases h' : k' = "id" <;> simp [Entity.attr, h']
  · rw [if_neg hk] at h
    by_cases hc : cls.decls.contains k = true
    · rw [if_pos hc] at h
      injection h with h
      subst h
      by_cases h' : k' = "id"
      · have hne : ¬ k' = k := fun hh => hk (hh ▸ h')
        have hne2 : ¬ "id" = k := fun hh => hk hh.symm
        simp [Entity.attr, h', hne, hne2]
      · simp [Entity.attr, h', getField_setField]
    · rw [if_neg hc] at h
      cases h

/-- The `setattr` model succeeds exactly on declared attribute names. -/
theorem setattrE_isSome (cls : EntityClass) (e : Entity) (k : String) (v : Int) :
    (setattrE cls e k v).isSome = settable cls k := by
  by_cases hk : k = "id"
  · simp [setattrE, settable, hk]
  · by_cases hc : k ∈ cls.decls <;> simp [setattrE, settable, hk, hc]

/-- When every non-`None` keyword names a declared attribute, the keyword
loop raises nothing. -/
theorem applyKwargs_ok (cls : EntityClass) (kwargs : List (String × Option Int))
    (e : Entity)
    (h : kwargs.all (fun kv => kv.2.isNone || settable cls kv.1) = true) :
    ∃ e2, applyKwargs cls e kwargs = .ok e2 := by
  induction kwargs generalizing e with
  | nil => exact ⟨e, rfl⟩
  | cons kv rest ih =>
      obtain ⟨k, v⟩ := kv
      simp only [List.all_cons, Bool.and_eq_true, Bool.or_eq_true] at h
      obtain ⟨h1, h2⟩ := h
      have h2' : rest.all (fun kv => kv.2.isNone || settable cls kv.1) = true := by
        simpa using h2
      cases v with
      | none => simpa [applyKwargs] using ih e h2'
      | some value =>
          have hs : settable cls k = true := by simpa using h1
          have : (setattrE cls e k value).isSome = true := by
            rw [setattrE_isSome]; exact hs
          obtain ⟨e1, he1⟩ := Option.isSome_iff_exists.mp this
          simpa [applyKwargs, he1] using ih e1 h2'

/-- Frame property of the keyword loop: attributes whose name is absent
from the keyword list are untouched. -/
theorem applyKwargs_frame (cls : EntityClass) (kwargs : List (String × Option Int))
    (e e2 : Entity) (k : String)
    (h : applyKwargs cls e kwargs = .ok e2) (hk : k ∉ kwargs.map Prod.fst) :
    Entity.attr e2 k = Entity.attr e k := by
  induction kwargs generalizing e with
  | nil =>
      simp only [applyKwargs, Except.ok.injEq] at h
      rw [h]
  | cons kv rest ih =>
      obtain ⟨k0, v0⟩ := kv
      simp only [List.map_cons, List.mem_cons, not_or] at hk
      obtain ⟨hk0, hkr⟩ := hk
      cases v0 with
      | none => exact ih e (by simpa [applyKwargs] using h) hkr
      | some value =>
          cases he1 : setattrE cls e k0 value with
          | none => simp [applyKwargs, he1] at h
          | some e1 =>
              have h' : applyKwargs cls e1 rest = .ok e2 := by
                simpa [applyKwargs, he1] using h
              rw [ih e1 h' hkr, setattrE_attr cls e e1 k0 k value he1, if_neg hk0]

/-- A keyword pair carrying a value sets exactly that value (keyword names
are unique, as Python guarantees for `**kwargs`). -/
theorem applyKwargs_sets (cls : EntityClass) (kwargs : List (String × Option Int))
    (e e2 : Entity) (k : String) (v : Int)
    (h : applyKwargs cls e kwargs = .ok e2)
    (hnd : (kwargs.map Prod.fst).Nodup) (hmem : (k, some v) ∈ kwargs) :
    Entity.attr e2 k = some v := by
  induction kwargs generalizing e with
  | nil => cases hmem
  | cons kv rest ih =>
      obtain ⟨k0, v0⟩ := kv
      simp only [List.map_cons, List.nodup_cons] at hnd
      rcases List.mem_cons.mp hmem with heq | hmem'
      · cases heq
        cases he1 : setattrE cls e k v with
        | none => simp [applyKwargs, he1] at h
        | some e1 =>
            have h' : applyKwargs cls e1 rest = .ok e2 := by
              simpa [applyKwargs, he1] using h
            rw [applyKwargs_frame cls rest e1 e2 k h' hnd.1,
              setattrE_attr cls e e1 k k v he1, if_pos rfl]
      · cases v0 with
        | none =>
            exact ih e (by simpa [applyKwargs] using h) hnd.2 hmem'
        | some value =>
            cases he1 : setattrE cls e k0 value with
            | none => simp [applyKwargs, he1] at h
            | some e1 =>
                exact ih e1 (by simpa [applyKwargs, he1] using h) hnd.2 hmem'

/-- A keyword pair carrying `None` leaves its attribute unchanged. -/
theorem applyKwargs_skips (cls : EntityClass) (kwargs : List (String × Option Int))
    (e e2 : Entity) (k : String)
    (h : applyKwargs cls e kwargs = .ok e2)
    (hnd : (kwargs.map Prod.fst).Nodup) (hmem : (k, (none : Option Int)) ∈ kwargs) :
    Entity.attr e2 k = Entity.attr e k := by
  induction kwargs generalizing e with
  | nil => cases hmem
  | cons kv rest ih =>
      obtain ⟨k0, v0⟩ := kv
      simp only [List.map_cons, List.nodup_cons] at hnd
      rcases List.mem_cons.mp hmem with heq | hmem'
      · cases heq
        exact applyKwargs_frame cls rest e e2 k (by simpa [applyKwargs] using h) hnd.1
      · have hk0 : k ≠ k0 := by
          intro hh
          exact hnd.1 (hh ▸ (List.mem_map.mpr ⟨(k, none), hmem', rfl⟩))
        cases v0 with
        | none =>
            exact ih e (by simpa [applyKwargs] using h) hnd.2 hmem'
        | some value =>
            cases he1 : setattrE cls e k0 value with
            | none => simp [applyKwargs, he1] at h
            | some e1 =>
                rw [ih e1 (by simpa [applyKwargs, he1] using h) hnd.2 hmem',
                  setattrE_attr cls e e1 k0 k value he1, if_neg hk0]

/-- C3: for a persisted entity and any changes map over declared
attributes with unique keys, `update` leaves an attribute unchanged when
its value is `None` (null means skip), sets exactly the attribute of every
non-`None` pair to that value, and leaves every attribute not named in
the map unchanged. -/
theorem update_none_skips_value_sets_frame (cfg : RepoConfig) (logOk : Bool)
    (s : Session) (e : Entity) (kwargs : List (String × Option Int))
    (hfetch : s.store.find? (fun r => r.id == e.id) = some e)
    (hvalid : kwargs.all (fun kv => kv.2.isNone || settable cfg.cls kv.1) = true)
    (hnd : (kwargs.map Prod.fst).Nodup) :
    ∃ e2, (updateOp cfg logOk s e kwargs).2.2 = .ok e2 ∧
      (∀ k, (k, (none : Option Int)) ∈ kwargs → Entity.attr e2 k = Entity.attr e k) ∧
      (∀ k v, (k, some v) ∈ kwargs → Entity.attr e2 k = some v) ∧
      (∀ k, k ∉ kwargs.map Prod.fst → Entity.attr e2 k = Entity.attr e k) := by
  obtain ⟨e2, h2⟩ := applyKwargs_ok cfg.cls kwargs e hvalid
  refine ⟨e2, ?_, ?_, ?_, ?_⟩
  · simp [updateOp, getOp, hfetch, h2]
  · exact fun k hk => applyKwargs_skips cfg.cls kwargs e e2 k h2 hnd hk
  · exact fun k v hk => applyKwargs_sets cfg.cls kwargs e e2 k v h2 hnd hk
  · exact fun k hk => applyKwargs_frame cfg.cls kwargs e e2 k h2 hk

/-- Witness for C3: updating the fixture row with `age=None, name=11`
keeps `age`, sets `name` and keeps the id. -/
theorem update_none_skips_value_sets_frame_witness :
    ∃ e2, (updateOp cfgW true sW dogW [("age", none), ("name", some 11)]).2.2 = .ok e2 ∧
      (∀ k, (k, (none : Option Int)) ∈ [("age", none), ("name", some 11)] →
        Entity.attr e2 k = Entity.attr dogW k) ∧
      (∀ k v, (k, some v) ∈ [("age", none), ("name", some 11)] → Entity.attr e2 k = some v) ∧
      (∀ k, k ∉ ([("age", none), ("name", some 11)] :
          List (String × Option Int)).map Prod.fst →
        Entity.attr e2 k = Entity.attr dogW k) :=
  update_none_skips_value_sets_frame cfgW true sW dogW [("age", none), ("name", some 11)]
    (by decide) (by decide) (by decide)

/-- C4 (divergence evidence): a successful `create` of a fixture entity
emits exactly one log event in total — the begin event, at debug level,
carrying the operation name, the entity class name and the redacted
attribute view with the sensitive `age` removed and every other attribute
verbatim — and no separate succeeded event with the affected entity ids
follows, although the operation returns successfully. -/
theorem create_emits_only_begin_event :
    (createOp engW cfgW true sW ⟨some 3, [("name", 7), ("age", 2)]⟩).2.1 =
      [{ level := .debug, operation := "Creating", entityName := "Pet",
         entityLog := [[("id", some 3), ("name", some 7)]], kwargLog := [] }] ∧
    (createOp engW cfgW true sW ⟨some 3, [("name", 7), ("age", 2)]⟩).2.2 =
      .ok ⟨some 3, [("name", 7), ("age", 2)]⟩ := by
  exact ⟨by decide, by decide⟩

/-- C5 counterexample: `update(dog, id=5)` is not rejected as a disallowed
key — it passes the not-`None` filter, succeeds, and changes the assigned
id both on the returned entity and on the stored row. -/
theorem update_id_key_not_rejected :
    (updateOp cfgW true sW dogW [("id", some 5)]).2.2 =
      .ok ⟨some 5, [("name", 10), ("age", 3)]⟩ ∧
    (updateOp cfgW true sW dogW [("id", some 5)]).1.store =
      [⟨some 5, [("name", 10), ("age", 3)]⟩] := by
  exact ⟨by decide, by decide⟩

/-- C5 (amended): `update` has no disallowed-key check: a non-`None` value
for the identifier field is applied like any other declared attribute
change, so the returned entity and the committed row carry the new id;
only attribute names that are not declared on the entity class are
rejected. -/
theorem update_sets_id_like_any_attribute (cfg : RepoConfig) (logOk : Bool)
    (s : Session) (e : Entity) (v : Int)
    (hfetch : s.store.find? (fun r => r.id == e.id) = some e) :
    (updateOp cfg logOk s e [("id", some v)]).2.2 = .ok { e with id := some v } ∧
    (updateOp cfg logOk s e [("id", some v)]).1.store =
      writeRow s.store e.id { e with id := some v } := by
  constructor <;> simp [updateOp, getOp, hfetch, applyKwargs, setattrE]

/-- Witness for the amended C5 at the fixture row. -/
theorem update_sets_id_like_any_attribute_witness :
    (updateOp cfgW true sW dogW [("id", some 5)]).2.2 = .ok { dogW with id := some 5 } ∧
    (updateOp cfgW true sW dogW [("id", some 5)]).1.store =
      writeRow sW.store dogW.id { dogW with id := some 5 } :=
  update_sets_id_like_any_attribute cfgW true sW dogW 5 (by decide)

/-- An update changes-map entry whose key is undeclared and whose value is
not `None` makes the keyword loop raise an attribute error (for the first
such key encountered). -/
theorem applyKwargs_error_of_bad_key (cls : EntityClass)
    (kwargs : List (String × Option Int)) (e : Entity) (k : String) (v : Int)
    (hmem : (k, some v) ∈ kwargs) (hk : settable cls k = false) :
    ∃ k2, settable cls k2 = false ∧
      applyKwargs cls e kwargs = .error (.entityDoesNotPossessAttribute k2) := by
  induction kwargs generalizing e with
  | nil => cases hmem
  | cons kv rest ih =>
      obtain ⟨k0, v0⟩ := kv
      cases v0 with
      | none =>
          rcases List.mem_cons.mp hmem with heq | hmem'
          · cases heq
          · obtain ⟨k2, hk2, happ⟩ := ih e hmem'
            exact ⟨k2, hk2, by simpa [applyKwargs] using happ⟩
      | some value =>
          cases he1 : setattrE cls e k0 value with
          | none =>
              refine ⟨k0, ?_, by simp [applyKwargs, he1]⟩
              have := setattrE_isSome cls e k0 value
              rw [he1] at this
              simpa using this.symm
          | some e1 =>
              rcases List.mem_cons.mp hmem with heq | hmem'
              · cases heq
                have := setattrE_isSome cls e k v
                rw [he1, hk] at this
                simp at this
              · obtain ⟨k2, hk2, happ⟩ := ih e1 hmem'
                exact ⟨k2, hk2, by simpa [applyKwargs, he1] using happ⟩

/-- C6: for every attribute name not declared on the resolved entity
class, `find` with that name among its keyword filters raises
`EntityDoesNotPossessAttribute` (whatever the rest of the call pattern),
and `update` on a persisted entity whose changes map carries that name
with a non-`None` value raises the same error kind; both propagate the
error as the operation's outcome. -/
theorem unknown_attribute_raises (cfg : RepoConfig) (logOk : Bool) (s : Session)
    (k : String) (hk : settable cfg.cls k = false) :
    (∀ (v : Int) (kw : List (String × Int)), (k, v) ∈ kw →
      ∃ k2, settable cfg.cls k2 = false ∧
        (findOp cfg logOk s kw).2.2 = .error (.entityDoesNotPossessAttribute k2)) ∧
    (∀ (e : Entity) (v : Int) (kwargs : List (String × Option Int)),
      s.store.find? (fun r => r.id == e.id) = some e → (k, some v) ∈ kwargs →
      ∃ k2, settable cfg.cls k2 = false ∧
        (updateOp cfg logOk s e kwargs).2.2 = .error (.entityDoesNotPossessAttribute k2)) := by
  constructor
  · intro v kw hmem
    have hsome : (kw.find? (fun kv => !settable cfg.cls kv.1)).isSome := by
      rw [List.find?_isSome]
      exact ⟨(k, v), hmem, by simp [hk]⟩
    obtain ⟨kv2, hkv2⟩ := Option.isSome_iff_exists.mp hsome
    have hp := List.find?_some hkv2
    refine ⟨kv2.1, ?_, by simp [findOp, hkv2]⟩
    simpa using hp
  · intro e v kwargs hfetch hmem
    obtain ⟨k2, hk2, happ⟩ := applyKwargs_error_of_bad_key cfg.cls kwargs e k v hmem hk
    exact ⟨k2, hk2, by simp [updateOp, getOp, hfetch, happ]⟩

/-- Witness for C6 with the undeclared name `legs` on the fixture class. -/
theorem unknown_attribute_raises_witness :
    (∃ k2, settable cfgW.cls k2 = false ∧
      (findOp cfgW true sW [("legs", 12)]).2.2 =
        .error (.entityDoesNotPossessAttribute k2)) ∧
    (∃ k2, settable cfgW.cls k2 = false ∧
      (updateOp cfgW true sW dogW [("legs", some 12)]).2.2 =
        .error (.entityDoesNotPossessAttribute k2)) := by
  have h := unknown_attribute_raises cfgW true sW "legs" (by decide)
  exact ⟨h.1 12 _ (by decide), h.2 dogW 12 _ (by decide) (by decide)⟩

/-- C7 counterexample: the context-local session provider caches — the
second acquisition returns the very session the first created and stored
in the context, so sessions are reused across separate calls rather than
scoped to one operation with a guaranteed release. -/
theorem get_session_reuses_cached_session :
    (get_session (get_session ⟨none, 0⟩).1).2 = (get_session ⟨none, 0⟩).2 ∧
    (get_session ⟨none, 0⟩).1.cached = some (get_session ⟨none, 0⟩).2 := by
  exact ⟨by decide, by decide⟩

/-- C7 (amended): `get_session` creates a session on first use and caches
it in the context; every later acquisition — including the internal
re-fetch inside `update` — returns the cached session and leaves the
context unchanged, so one context shares a single session across calls
and the repository never releases it per call. -/
theorem get_session_caches_and_reuses (ctx : SessionContext) :
    ((get_session ctx).1.cached = some (get_session ctx).2) ∧
    (∀ sess, ctx.cached = some sess → get_session ctx = (ctx, sess)) ∧
    ((get_session (get_session ctx).1).2 = (get_session ctx).2) := by
  cases hc : ctx.cached <;> simp [get_session, hc]

/-- Witness for the amended C7 on a fresh context and on a caching one. -/
theorem get_session_caches_and_reuses_witness :
    ((get_session ⟨none, 0⟩).1.cached = some (get_session ⟨none, 0⟩).2) ∧
    (get_session (⟨some 0, 1⟩ : SessionContext) = (⟨some 0, 1⟩, 0)) ∧
    ((get_session (get_session ⟨none, 0⟩).1).2 = (get_session ⟨none, 0⟩).2) := by
  have h1 := get_session_caches_and_reuses ⟨none, 0⟩
  have h2 := get_session_caches_and_reuses ⟨some 0, 1⟩
  exact ⟨h1.1, h2.2.1 0 rfl, h1.2.2⟩

/-- C8: a failure inside log construction or emission (`logOk = false`) is
demoted to a single warning event and never re-raised: for every public
operation the resulting session state and the returned value or raised
exception are identical to the run in which logging succeeded. -/
theorem logging_failure_never_alters_outcome (eng : Engine) (cfg : RepoConfig)
    (s : Session) :
    (∀ op ents kws, emitLog cfg false op ents kws =
      [{ level := .warning, operation := "Could not emit log for " ++ op,
         entityName := cfg.cls.name, entityLog := [], kwargLog := [] }]) ∧
    (∀ e, ((createOp eng cfg false s e).1, (createOp eng cfg false s e).2.2) =
      ((createOp eng cfg true s e).1, (createOp eng cfg true s e).2.2)) ∧
    (∀ es, ((createBatchOp eng cfg false s es).1, (createBatchOp eng cfg false s es).2.2) =
      ((createBatchOp eng cfg true s es).1, (createBatchOp eng cfg true s es).2.2)) ∧
    (∀ i, ((getOp cfg false s i).1, (getOp cfg false s i).2.2) =
      ((getOp cfg true s i).1, (getOp cfg true s i).2.2)) ∧
    (∀ fs, ((getBatchOp cfg false s fs).1, (getBatchOp cfg false s fs).2.2) =
      ((getBatchOp cfg true s fs).1, (getBatchOp cfg true s fs).2.2)) ∧
    (∀ kw, ((findOp cfg false s kw).1, (findOp cfg false s kw).2.2) =
      ((findOp cfg true s kw).1, (findOp cfg true s kw).2.2)) ∧
    (∀ e kwargs, ((updateOp cfg false s e kwargs).1, (updateOp cfg false s e kwargs).2.2) =
      ((updateOp cfg true s e kwargs).1, (updateOp cfg true s e kwargs).2.2)) ∧
    (∀ es kwargs,
      ((updateBatchOp cfg false s es kwargs).1, (updateBatchOp cfg false s es kwargs).2.2) =
      ((updateBatchOp cfg true s es kwargs).1, (updateBatchOp cfg true s es kwargs).2.2)) ∧
    (∀ e, ((deleteOp eng cfg false s e).1, (deleteOp eng cfg false s e).2.2) =
      ((deleteOp eng cfg true s e).1, (deleteOp eng cfg true s e).2.2)) ∧
    (∀ es, ((deleteBatchOp eng cfg false s es).1, (deleteBatchOp eng cfg false s es).2.2) =
      ((deleteBatchOp eng cfg true s es).1, (deleteBatchOp eng cfg true s es).2.2)) := by
  refine ⟨fun op ents kws => rfl, ?_, ?_, ?_, ?_, ?_, ?_, ?_, ?_, ?_⟩
  · intro e
    cases h : commit eng (sessionAdd s e) <;> simp [createOp, h]
  · intro es
    cases h : commit eng (es.foldl sessionAdd s) <;> simp [createBatchOp, h]
  · intro i
    cases h : s.store.find? (fun r => r.id == i) <;> simp [getOp, h]
  · intro fs
    simp [getBatchOp]
  · intro kw
    cases h : kw.find? (fun kv => !settable cfg.cls kv.1) <;> simp [findOp, getBatchOp, h]
  · intro e kwargs
    cases h : s.store.find? (fun r => r.id == e.id) with
    | none => simp [updateOp, getOp, h]
    | some fetched =>
        cases h2 : applyKwargs cfg.cls fetched kwargs <;> simp [updateOp, getOp, h, h2]
  · intro es kwargs
    cases h : applyAllKwargs cfg.cls es kwargs <;> simp [updateBatchOp, h]
  · intro e
    cases h : commit eng (sessionDelete s e) <;> simp [deleteOp, h]
  · intro es
    cases h : commit eng (es.foldl sessionDelete s) <;> simp [deleteBatchOp, h]

/-- C9 counterexample: with the size-one cache shared by all repository
subclasses, alternating two valid subclasses (`PetRepo`, `ShelterRepo`,
`PetRepo`) runs the resolution for `PetRepo` twice — it is not computed
at most once and reused by all later calls. -/
theorem entity_class_recomputed_after_eviction :
    ((runEntityClassCalls ⟨none⟩
        [⟨"PetRepo", ⟨"Pet", true⟩⟩, ⟨"ShelterRepo", ⟨"Shelter", true⟩⟩,
          ⟨"PetRepo", ⟨"Pet", true⟩⟩]).2.filter
      (fun p => p.1 == ⟨"PetRepo", ⟨"Pet", true⟩⟩ && p.2)).length = 2 := by
  decide

/-- C9 (amended): entity-class resolution is memoised in a single-entry
cache shared by every repository subclass: a call for the class held in
the cache is answered without recomputation, a call for a different class
recomputes and evicts the entry, and a bound type that is not a subclass
of the base entity abstraction raises a `TypeError` at resolution time —
which is never cached — rather than silently defaulting. -/
theorem entity_class_single_entry_cache (r r2 : RepoClassDecl) (t : TypeDecl)
    (hval : r.genericArg.isEntitySubclass = true)
    (hbad : r2.genericArg.isEntitySubclass = false) :
    resolveEntityClass r = .ok r.genericArg ∧
    entityClassCached ⟨some (r, t)⟩ r = (⟨some (r, t)⟩, .ok t, false) ∧
    entityClassCached ⟨none⟩ r2 =
      (⟨none⟩, .error ("Entity class " ++ r2.genericArg.name ++ " for " ++ r2.name ++
        " must be a subclass of SQLModelEntity"), true) ∧
    entityClassCached ⟨some (r, t)⟩ r2 =
      (⟨some (r, t)⟩, .error ("Entity class " ++ r2.genericArg.name ++ " for " ++
        r2.name ++ " must be a subclass of SQLModelEntity"), true) ∧
    (∀ (r0 : RepoClassDecl) (t0 : TypeDecl), r0 ≠ r →
      entityClassCached ⟨some (r0, t0)⟩ r =
        (⟨some (r, r.genericArg)⟩, .ok r.genericArg, true)) := by
  have hne : r ≠ r2 := by
    intro h
    rw [h, hbad] at hval
    cases hval
  refine ⟨by simp [resolveEntityClass, hval], by simp [entityClassCached], ?_, ?_, ?_⟩
  · simp [entityClassCached, resolveEntityClass, hbad]
  · simp [entityClassCached, resolveEntityClass, hbad, hne]
  · intro r0 t0 h0
    simp [entityClassCached, resolveEntityClass, hval, h0]

/-- Witness for the amended C9 on concrete class declarations. -/
theorem entity_class_single_entry_cache_witness :
    resolveEntityClass ⟨"PetRepo", ⟨"Pet", true⟩⟩ = .ok ⟨"Pet", true⟩ ∧
    entityClassCached ⟨some (⟨"PetRepo", ⟨"Pet", true⟩⟩, ⟨"Pet", true⟩)⟩
        ⟨"PetRepo", ⟨"Pet", true⟩⟩ =
      (⟨some (⟨"PetRepo", ⟨"Pet", true⟩⟩, ⟨"Pet", true⟩)⟩, .ok ⟨"Pet", true⟩, false) ∧
    entityClassCached ⟨some (⟨"ShelterRepo", ⟨"Shelter", true⟩⟩, ⟨"Shelter", true⟩)⟩
        ⟨"PetRepo", ⟨"Pet", true⟩⟩ =
      (⟨some (⟨"PetRepo", ⟨"Pet", true⟩⟩, ⟨"Pet", true⟩)⟩, .ok ⟨"Pet", true⟩, true) := by
  have h := entity_class_single_entry_cache ⟨"PetRepo", ⟨"Pet", true⟩⟩
    ⟨"BadRepo", ⟨"int", false⟩⟩ ⟨"Pet", true⟩ rfl rfl
  exact ⟨h.1, h.2.1, h.2.2.2.2 ⟨"ShelterRepo", ⟨"Shelter", true⟩⟩ ⟨"Shelter", true⟩
    (by decide)⟩

/-- When every non-`None` keyword is declared, the nested loop of
`update_batch` succeeds on every entity of the batch. -/
theorem applyAllKwargs_ok (cls : EntityClass) (es : List Entity)
    (kwargs : List (String × Option Int))
    (h : kwargs.all (fun kv => kv.2.isNone || settable cls kv.1) = true) :
    ∃ es2, applyAllKwargs cls es kwargs = .ok es2 := by
  induction es with
  | nil => exact ⟨[], rfl⟩
  | cons e rest ih =>
      obtain ⟨e2, he2⟩ := applyKwargs_ok cls kwargs e h
      obtain ⟨rest2, hrest⟩ := ih
      exact ⟨e2 :: rest2, by simp [applyAllKwargs, he2, hrest]⟩

/-- C10: `update` re-fetches the entity by id and raises
`EntityNotFoundException` when the id is absent from the store, whereas
`update_batch` performs no existence check at all — for every list of
in-memory entities, including ones whose ids are absent, it applies the
non-`None` changes to the given objects and commits, and its outcome is
never `EntityNotFound`. -/
theorem update_batch_skips_existence_check (cfg : RepoConfig) (logOk : Bool)
    (s : Session) (kwargs : List (String × Option Int))
    (hvalid : kwargs.all (fun kv => kv.2.isNone || settable cfg.cls kv.1) = true) :
    (∀ e, s.store.find? (fun r => r.id == e.id) = none →
      (updateOp cfg logOk s e kwargs).2.2 = .error .entityNotFound) ∧
    (∀ es, ∃ es2, applyAllKwargs cfg.cls es kwargs = .ok es2 ∧
      (updateBatchOp cfg logOk s es kwargs).2.2 = .ok es2 ∧
      (updateBatchOp cfg logOk s es kwargs).2.2 ≠ .error .entityNotFound) := by
  constructor
  · intro e habsent
    simp [updateOp, getOp, habsent]
  · intro es
    obtain ⟨es2, hes2⟩ := applyAllKwargs_ok cfg.cls es kwargs hvalid
    refine ⟨es2, hes2, by simp [updateBatchOp, hes2], by simp [updateBatchOp, hes2]⟩

/-- Witness for C10: id `7` is absent from the fixture store — `update`
raises `EntityNotFound` there while `update_batch` on the same entity
succeeds. -/
theorem update_batch_skips_existence_check_witness :
    ((updateOp cfgW true sW ⟨some 7, [("name", 1), ("age", 1)]⟩
        [("name", some 2)]).2.2 = .error .entityNotFound) ∧
    (∃ es2, applyAllKwargs cfgW.cls [⟨some 7, [("name", 1), ("age", 1)]⟩]
        [("name", some 2)] = .ok es2 ∧
      (updateBatchOp cfgW true sW [⟨some 7, [("name", 1), ("age", 1)]⟩]
        [("name", some 2)]).2.2 = .ok es2 ∧
      (updateBatchOp cfgW true sW [⟨some 7, [("name", 1), ("age", 1)]⟩]
        [("name", some 2)]).2.2 ≠ .error .entityNotFound) := by
  have h := update_batch_skips_existence_check cfgW true sW [("name", some 2)] (by decide)
  exact ⟨h.1 ⟨some 7, [("name", 1), ("age", 1)]⟩ (by decide),
    h.2 [⟨some 7, [("name", 1), ("age", 1)]⟩]⟩

end SqlmodelRepository
